import Mathlib

/-!
Verification development for `convert_to_pdf.py`, a batch Markdown→PDF
converter.  The script, for each entry of a fixed job list, checks that the
Markdown source exists, runs an external `pandoc` subprocess to produce an
intermediate HTML file, calls the WeasyPrint library to render that HTML to
PDF, deletes the intermediate HTML file, and tallies success/failure; at the
end it prints a summary line and a listing of the output PDFs.

The embedding below models the filesystem as a map from paths to file sizes
and the two external collaborators (pandoc and WeasyPrint) plus the
`os.remove` call as per-job outcome oracles (`JobEnv`), following the external
contracts the script relies on: pandoc writes its output file exactly when it
exits 0, and a failing `write_pdf` call writes no output file.
-/

namespace ConvertToPdf

/-- A filesystem state: maps each path to `some size` (in bytes) when a file
exists there, `none` otherwise. -/
abbrev FS := String → Option Nat

/-- Writing a file of size `sz` at path `p`. -/
def fsSet (fs : FS) (p : String) (sz : Nat) : FS :=
  fun q => if q = p then some sz else fs q

/-- Deleting the file at path `p`. -/
def fsRemove (fs : FS) (p : String) : FS :=
  fun q => if q = p then none else fs q

/-- Python's `str.replace('.md', '.html')` specialised to its call site
(line 16 of the script): replaces every non-overlapping occurrence of the
substring `.md`, scanning left to right, by `.html`. -/
def replaceMd : List Char → List Char
  | [] => []
  | [c] => [c]
  | [c1, c2] => [c1, c2]
  | c1 :: c2 :: c3 :: rest =>
    if c1 = '.' ∧ c2 = 'm' ∧ c3 = 'd' then
      '.' :: 'h' :: 't' :: 'm' :: 'l' :: replaceMd rest
    else
      c1 :: replaceMd (c2 :: c3 :: rest)

/-- `html_file = md_file.replace('.md', '.html')` (script line 16). -/
def htmlOf (md_file : String) : String :=
  String.mk (replaceMd md_file.data)

/-- Outcome of the WeasyPrint step for one job: the `from weasyprint import
HTML` line may raise `ImportError`; otherwise `HTML(html).write_pdf(pdf)`
either writes a PDF of some size or raises an exception carrying a message. -/
inductive RenderOutcome
  | ok (pdfSize : Nat)
  | importError
  | exn (msg : String)
deriving DecidableEq

/-- Oracle fixing the behaviour of the external steps for one job:
the pandoc subprocess's exit code and captured stderr, the size of the HTML
file pandoc writes when it exits 0, the WeasyPrint outcome, and whether the
`os.remove` cleanup call raises (e.g. a permission error) with what message. -/
structure JobEnv where
  pandocRc : Int
  pandocStderr : String
  htmlSize : Nat
  render : RenderOutcome
  removeRaises : Bool
  removeMsg : String
deriving DecidableEq

/-- WeasyPrint-missing message printed by the script (line 54). -/
def weasyprintMissingMsg : String :=
  "Error: WeasyPrint not installed. Run: pip install weasyprint"

/-- Embedding of `markdown_to_pdf(md_file, pdf_file)` (script lines 10-58).
Returns `(none, fs)` when the Python function returns `True`, and
`(some reason, fs)` with the reported error text when it returns `False`.

Step 1 (lines 16-35): pandoc is run; on a non-zero exit code the captured
stderr is reported and the function returns `False`; on exit code 0 the
intermediate HTML file has been written.  Step 2 (lines 40-58): inside one
`try`, WeasyPrint is imported (may raise `ImportError`), the PDF is written
(may raise), and then `os.remove(html_file)` deletes the HTML file (raising
`FileNotFoundError` if it is absent, or possibly another `OSError`); every
exception is caught and turns into a `False` return. -/
def markdown_to_pdf (fs : FS) (md_file pdf_file : String) (env : JobEnv) :
    Option String × FS :=
  let html_file := htmlOf md_file
  if env.pandocRc ≠ 0 then
    (some env.pandocStderr, fs)
  else
    let fs1 := fsSet fs html_file env.htmlSize
    match env.render with
    | RenderOutcome.importError => (some weasyprintMissingMsg, fs1)
    | RenderOutcome.exn msg => (some msg, fs1)
    | RenderOutcome.ok pdfSize =>
      let fs2 := fsSet fs1 pdf_file pdfSize
      match fs2 html_file with
      | none => (some "FileNotFoundError", fs2)
      | some _ =>
        if env.removeRaises then (some env.removeMsg, fs2)
        else (none, fsRemove fs2 html_file)

/-- One conversion job: `(markdown source path, PDF output path)`. -/
structure Job where
  md : String
  pdf : String
deriving DecidableEq

/-- Per-job outcome, the spec's `ConversionResult`: `Succeeded` corresponds to
`markdown_to_pdf` returning `True`, `SourceMissing` to the
`Path(md_file).exists()` guard failing (script lines 88-91), and
`ConversionFailed reason` to `markdown_to_pdf` returning `False` after
reporting `reason`. -/
inductive JobResult
  | succeeded
  | sourceMissing
  | conversionFailed (reason : String)
deriving DecidableEq

/-- One iteration of the loop in `main` (script lines 80-91): the existence
check on the Markdown source followed by `markdown_to_pdf`. -/
def processJob (fs : FS) (j : Job) (env : JobEnv) : JobResult × FS :=
  match fs j.md with
  | none => (JobResult.sourceMissing, fs)
  | some _ =>
    match markdown_to_pdf fs j.md j.pdf env with
    | (none, fs') => (JobResult.succeeded, fs')
    | (some r, fs') => (JobResult.conversionFailed r, fs')

/-- State accumulated by the `main` loop: the per-job results in order, the
two counters, and the filesystem. -/
structure LoopState where
  results : List JobResult
  successCount : Nat
  failCount : Nat
  fs : FS

/-- The loop of `main` (script lines 80-91): jobs are processed strictly in
list order; `success_count` is incremented exactly when `markdown_to_pdf`
returns `True`, `fail_count` in every other case (including a missing
source). -/
def mainLoop (fs : FS) (s f : Nat) : List (Job × JobEnv) → LoopState
  | [] => ⟨[], s, f, fs⟩
  | (j, e) :: rest =>
    let step := processJob fs j e
    let st :=
      if step.1 = JobResult.succeeded then mainLoop step.2 (s + 1) f rest
      else mainLoop step.2 s (f + 1) rest
    ⟨step.1 :: st.results, st.successCount, st.failCount, st.fs⟩

/-- The summary line printed at script line 94. -/
def summaryLine (s f : Nat) : String :=
  s!"Summary: {s} successful, {f} failed"

/-- One line of the final PDF listing (script lines 99-104): `found` carries
the byte size from which the printed megabyte figure
(`st_size / (1024 * 1024)`) is computed; `notFound` is the NOT FOUND marker. -/
inductive ListingEntry
  | found (pdf : String) (sizeBytes : Nat)
  | notFound (pdf : String)
deriving DecidableEq

/-- The final PDF listing (script lines 99-104), in job-list order, read from
the filesystem left after all jobs ran. -/
def listingOf (fs : FS) (docs : List Job) : List ListingEntry :=
  docs.map fun j =>
    match fs j.pdf with
    | some n => ListingEntry.found j.pdf n
    | none => ListingEntry.notFound j.pdf

/-- Everything observable from one run of `main`: the per-job results, the two
counters, the printed summary line, the final listing, the final filesystem,
and the process exit status. -/
structure MainOutput where
  results : List JobResult
  successCount : Nat
  failCount : Nat
  summary : String
  listing : List ListingEntry
  finalFs : FS
  exitCode : Nat

/-- `main` (script lines 61-104), parametrised by the job list: runs the loop
from counters `0, 0`, prints the summary, then the listing.  `main()` returns
normally on every path (all exceptions of the per-job steps are caught inside
`markdown_to_pdf`), so the interpreter exits with status 0. -/
def mainOn (docs : List Job) (fs0 : FS) (envs : List JobEnv) : MainOutput :=
  let st := mainLoop fs0 0 0 (docs.zip envs)
  { results := st.results
    successCount := st.successCount
    failCount := st.failCount
    summary := summaryLine st.successCount st.failCount
    listing := listingOf st.fs docs
    finalFs := st.fs
    exitCode := 0 }

/-- The hardcoded job list of `main` (script lines 66-70). -/
def documents : List Job :=
  [⟨"REFERENCE_MANUAL.md", "REFERENCE_MANUAL.pdf"⟩,
   ⟨"IMPLEMENTATION_GUIDE.md", "IMPLEMENTATION_GUIDE.pdf"⟩,
   ⟨"ARCHITECTURE.md", "ARCHITECTURE.pdf"⟩]

/-- The script's `main` with its hardcoded job list. -/
def main (fs0 : FS) (envs : List JobEnv) : MainOutput :=
  mainOn documents fs0 envs

/-! ### Basic lemmas about the filesystem operations -/

@[simp]
theorem fsSet_apply (fs : FS) (p : String) (sz : Nat) (q : String) :
    fsSet fs p sz q = if q = p then some sz else fs q := rfl

@[simp]
theorem fsRemove_apply (fs : FS) (p : String) (q : String) :
    fsRemove fs p q = if q = p then none else fs q := rfl

/-! ### Case analyses of `processJob` -/

theorem processJob_sourceMissing (fs : FS) (j : Job) (e : JobEnv)
    (h : fs j.md = none) :
    processJob fs j e = (JobResult.sourceMissing, fs) := by
  simp [processJob, h]

theorem processJob_pandocFail (fs : FS) (j : Job) (e : JobEnv) (n : Nat)
    (hmd : fs j.md = some n) (hrc : e.pandocRc ≠ 0) :
    processJob fs j e = (JobResult.conversionFailed e.pandocStderr, fs) := by
  simp [processJob, markdown_to_pdf, hmd, hrc]

theorem processJob_importError (fs : FS) (j : Job) (e : JobEnv) (n : Nat)
    (hmd : fs j.md = some n) (hrc : e.pandocRc = 0)
    (hr : e.render = RenderOutcome.importError) :
    processJob fs j e =
      (JobResult.conversionFailed weasyprintMissingMsg,
       fsSet fs (htmlOf j.md) e.htmlSize) := by
  simp [processJob, markdown_to_pdf, hmd, hrc, hr]

theorem processJob_renderExn (fs : FS) (j : Job) (e : JobEnv) (n : Nat)
    (m : String) (hmd : fs j.md = some n) (hrc : e.pandocRc = 0)
    (hr : e.render = RenderOutcome.exn m) :
    processJob fs j e =
      (JobResult.conversionFailed m, fsSet fs (htmlOf j.md) e.htmlSize) := by
  simp [processJob, markdown_to_pdf, hmd, hrc, hr]

/-- After pandoc wrote the HTML file and WeasyPrint wrote the PDF, the HTML
path is still occupied, so the `os.remove` call never hits its
`FileNotFoundError` branch. -/
theorem fsSet_fsSet_html (fs : FS) (html pdf : String) (hsz psz : Nat) :
    ∃ k, fsSet (fsSet fs html hsz) pdf psz html = some k := by
  by_cases h : html = pdf <;> simp [h]

theorem processJob_removeRaises (fs : FS) (j : Job) (e : JobEnv) (n : Nat)
    (psz : Nat) (hmd : fs j.md = some n) (hrc : e.pandocRc = 0)
    (hr : e.render = RenderOutcome.ok psz) (hrm : e.removeRaises = true) :
    processJob fs j e =
      (JobResult.conversionFailed e.removeMsg,
       fsSet (fsSet fs (htmlOf j.md) e.htmlSize) j.pdf psz) := by
  by_cases h : htmlOf j.md = j.pdf <;>
    simp [processJob, markdown_to_pdf, hmd, hrc, hr, hrm, h]

theorem processJob_success (fs : FS) (j : Job) (e : JobEnv) (n : Nat)
    (psz : Nat) (hmd : fs j.md = some n) (hrc : e.pandocRc = 0)
    (hr : e.render = RenderOutcome.ok psz) (hrm : e.removeRaises = false) :
    processJob fs j e =
      (JobResult.succeeded,
       fsRemove (fsSet (fsSet fs (htmlOf j.md) e.htmlSize) j.pdf psz)
         (htmlOf j.md)) := by
  by_cases h : htmlOf j.md = j.pdf <;>
    simp [processJob, markdown_to_pdf, hmd, hrc, hr, hrm, h]

/-- `processJob` touches no path other than the job's intermediate HTML path
and its PDF output path. -/
theorem processJob_frame (fs : FS) (j : Job) (e : JobEnv) (p : String)
    (hh : p ≠ htmlOf j.md) (hp : p ≠ j.pdf) :
    (processJob fs j e).2 p = fs p := by
  cases hmd : fs j.md with
  | none => rw [processJob_sourceMissing fs j e hmd]
  | some n =>
    by_cases hrc : e.pandocRc = 0
    · cases hr : e.render with
      | importError =>
        rw [processJob_importError fs j e n hmd hrc hr]
        simp [hh]
      | exn m =>
        rw [processJob_renderExn fs j e n m hmd hrc hr]
        simp [hh]
      | ok psz =>
        cases hrm : e.removeRaises with
        | true =>
          rw [processJob_removeRaises fs j e n psz hmd hrc hr hrm]
          simp [hh, hp]
        | false =>
          rw [processJob_success fs j e n psz hmd hrc hr hrm]
          simp [hh, hp]
    · rw [processJob_pandocFail fs j e n hmd hrc]

/-! ### Lemmas about the main loop -/

/-- The loop produces exactly one result per job. -/
theorem mainLoop_results_length (jobs : List (Job × JobEnv)) :
    ∀ (fs : FS) (s f : Nat),
      (mainLoop fs s f jobs).results.length = jobs.length := by
  induction jobs with
  | nil => intro fs s f; rfl
  | cons je rest ih =>
    intro fs s f
    obtain ⟨j, e⟩ := je
    simp only [mainLoop, List.length_cons]
    split <;> simp [ih]

/-- Exactly one of the two counters is incremented per job. -/
theorem mainLoop_counts (jobs : List (Job × JobEnv)) :
    ∀ (fs : FS) (s f : Nat),
      (mainLoop fs s f jobs).successCount + (mainLoop fs s f jobs).failCount
        = s + f + jobs.length := by
  induction jobs with
  | nil => intro fs s f; rfl
  | cons je rest ih =>
    intro fs s f
    obtain ⟨j, e⟩ := je
    simp only [mainLoop, List.length_cons]
    split <;> (rw [ih]; omega)

/-- The result list and the final filesystem do not depend on the counter
values the loop starts from. -/
theorem mainLoop_counters_irrelevant (jobs : List (Job × JobEnv)) :
    ∀ (fs : FS) (s f s' f' : Nat),
      (mainLoop fs s f jobs).results = (mainLoop fs s' f' jobs).results ∧
      (mainLoop fs s f jobs).fs = (mainLoop fs s' f' jobs).fs := by
  induction jobs with
  | nil => intro fs s f s' f'; exact ⟨rfl, rfl⟩
  | cons je rest ih =>
    intro fs s f s' f'
    obtain ⟨j, e⟩ := je
    simp only [mainLoop]
    split
    · exact ⟨congrArg _ (ih (processJob fs j e).2 (s + 1) f (s' + 1) f').1,
        (ih (processJob fs j e).2 (s + 1) f (s' + 1) f').2⟩
    · exact ⟨congrArg _ (ih (processJob fs j e).2 s (f + 1) s' (f' + 1)).1,
        (ih (processJob fs j e).2 s (f + 1) s' (f' + 1)).2⟩

/-- Running the loop on a concatenation first runs the prefix, then continues
on the suffix from the state the prefix left. -/
def contLoop (st : LoopState) (bs : List (Job × JobEnv)) : LoopState :=
  mainLoop st.fs st.successCount st.failCount bs

theorem mainLoop_append (as bs : List (Job × JobEnv)) :
    ∀ (fs : FS) (s f : Nat),
      mainLoop fs s f (as ++ bs) =
        ⟨(mainLoop fs s f as).results ++ (contLoop (mainLoop fs s f as) bs).results,
         (contLoop (mainLoop fs s f as) bs).successCount,
         (contLoop (mainLoop fs s f as) bs).failCount,
         (contLoop (mainLoop fs s f as) bs).fs⟩ := by
  induction as with
  | nil => intro fs s f; simp [mainLoop, contLoop]
  | cons je rest ih =>
    intro fs s f
    obtain ⟨j, e⟩ := je
    simp only [List.cons_append, mainLoop]
    split <;> simp [ih, contLoop]

/-- A path no job of the list touches (neither as intermediate HTML path nor
as PDF output path) is left exactly as it was. -/
theorem mainLoop_frame (jobs : List (Job × JobEnv)) :
    ∀ (fs : FS) (s f : Nat) (p : String),
      (∀ je ∈ jobs, p ≠ htmlOf je.1.md ∧ p ≠ je.1.pdf) →
      (mainLoop fs s f jobs).fs p = fs p := by
  induction jobs with
  | nil => intro fs s f p _; rfl
  | cons je rest ih =>
    intro fs s f p hp
    obtain ⟨j, e⟩ := je
    have h1 := hp (j, e) (by simp)
    have h2 : ∀ je ∈ rest, p ≠ htmlOf je.1.md ∧ p ≠ je.1.pdf :=
      fun x hx => hp x (by simp [hx])
    simp only [mainLoop]
    split <;> rw [ih _ _ _ _ h2, processJob_frame _ _ _ _ h1.1 h1.2]

/-- The `i`-th result of the loop is obtained by processing the `i`-th job on
the filesystem left by exactly the first `i` jobs. -/
theorem mainLoop_get (jobs : List (Job × JobEnv)) :
    ∀ (fs : FS) (s f : Nat) (i : Nat) (j : Job) (e : JobEnv),
      jobs[i]? = some (j, e) →
      (mainLoop fs s f jobs).results[i]? =
        some (processJob (mainLoop fs s f (jobs.take i)).fs j e).1 := by
  induction jobs with
  | nil => intro fs s f i j e h; simp at h
  | cons je rest ih =>
    intro fs s f i j e h
    obtain ⟨j0, e0⟩ := je
    cases i with
    | zero =>
      simp at h
      simp [mainLoop, h.1, h.2]
    | succ i =>
      simp at h
      simp only [List.take_succ_cons, mainLoop]
      split <;>
        (simp only [List.getElem?_cons_succ]
         rw [ih _ _ _ _ _ _ h])

/-! ### The `.md` → `.html` substring replacement -/

/-- Whether the character list contains an occurrence of `.md`. -/
def hasMd : List Char → Bool
  | [] => false
  | [_] => false
  | [_, _] => false
  | c1 :: c2 :: c3 :: rest =>
    if c1 = '.' ∧ c2 = 'm' ∧ c3 = 'd' then true else hasMd (c2 :: c3 :: rest)

theorem hasMd_head (c1 c2 c3 : Char) (rest : List Char)
    (h : hasMd (c1 :: c2 :: c3 :: rest) = false) :
    ¬(c1 = '.' ∧ c2 = 'm' ∧ c3 = 'd') := by
  intro hx
  simp [hasMd, hx] at h

theorem hasMd_tail (c : Char) (t : List Char) (h : hasMd (c :: t) = false) :
    hasMd t = false := by
  match t with
  | [] => rfl
  | [_] => rfl
  | c2 :: c3 :: rest =>
    simp only [hasMd] at h
    split at h
    · exact absurd h (by simp)
    · exact h

theorem replaceMd_cons (c1 c2 c3 : Char) (rest : List Char)
    (h : ¬(c1 = '.' ∧ c2 = 'm' ∧ c3 = 'd')) :
    replaceMd (c1 :: c2 :: c3 :: rest) = c1 :: replaceMd (c2 :: c3 :: rest) := by
  simp [replaceMd, h]

/-- When `.md` does not occur inside `l`, the replacement leaves `l` alone and
rewrites the trailing `.md` it is followed by. -/
theorem replaceMd_append_md (l : List Char) (h : hasMd l = false) :
    replaceMd (l ++ ['.', 'm', 'd']) = l ++ ['.', 'h', 't', 'm', 'l'] := by
  induction l with
  | nil => decide
  | cons c l' ih =>
    cases l' with
    | nil =>
      simp only [List.nil_append, List.cons_append]
      rw [replaceMd_cons c '.' 'm' ['d']
        (fun hx => absurd hx.2.1 (by decide))]
      exact congrArg _ (by decide)
    | cons b l'' =>
      cases l'' with
      | nil =>
        simp only [List.nil_append, List.cons_append]
        rw [replaceMd_cons c b '.' ['m', 'd']
          (fun hx => absurd hx.2.2 (by decide))]
        rw [replaceMd_cons b '.' 'm' ['d']
          (fun hx => absurd hx.2.1 (by decide))]
        exact congrArg _ (congrArg _ (by decide))
      | cons d l3 =>
        simp only [List.cons_append] at *
        rw [replaceMd_cons c b d (l3 ++ ['.', 'm', 'd'])
          (hasMd_head c b d l3 h)]
        have ht : hasMd (b :: d :: l3) = false := hasMd_tail c _ h
        have := ih ht
        simp only [List.cons_append] at this
        rw [this]

theorem data_append (s t : String) : (s ++ t).data = s.data ++ t.data := rfl

/-! ### Concrete fixtures used by witnesses and counterexamples -/

/-- The empty filesystem. -/
def fsEmpty : FS := fun _ => none

/-- A filesystem holding exactly one file, `a.md`, of 7 bytes. -/
def fsA : FS := fun p => if p = "a.md" then some 7 else none

/-- An environment in which every external step succeeds. -/
def eGood : JobEnv :=
  ⟨0, "", 3, RenderOutcome.ok 5, false, ""⟩

/-- An environment in which pandoc fails with exit code 1. -/
def ePandocFail : JobEnv :=
  ⟨1, "pandoc: a.md: openFile: does not exist", 3, RenderOutcome.ok 5, false, ""⟩

/-- An environment in which WeasyPrint's `write_pdf` raises. -/
def eRenderFail : JobEnv :=
  ⟨0, "", 3, RenderOutcome.exn "Failed to load image", false, ""⟩

/-- An environment in which both external tools succeed but the `os.remove`
cleanup call raises. -/
def eRemoveFail : JobEnv :=
  ⟨0, "", 3, RenderOutcome.ok 5, true, "Permission denied"⟩

/-! ## Claims -/

/-- C9: The intermediate HTML path is derived from the Markdown path by
replacing every occurrence of the substring `.md` with `.html`, not only a
trailing extension: for any source path in which `.md` occurs only as the
final extension this yields stem + `.html`, but for a path containing `.md`
elsewhere (e.g. `notes.md.md` or `a.mdx.md`) all occurrences are replaced. -/
theorem C9_html_path_replaces_every_md :
    (∀ stem : String, hasMd stem.data = false →
        htmlOf (stem ++ ".md") = stem ++ ".html") ∧
    htmlOf "notes.md.md" = "notes.html.html" ∧
    htmlOf "a.mdx.md" = "a.htmlx.html" := by
  refine ⟨?_, by decide, by decide⟩
  intro stem h
  obtain ⟨l⟩ := stem
  show String.mk (replaceMd (l ++ ['.', 'm', 'd'])) = _
  rw [replaceMd_append_md l h]
  rfl

theorem C9_witness :
    hasMd "notes".data = false ∧
    htmlOf ("notes" ++ ".md") = "notes" ++ ".html" :=
  ⟨by decide, C9_html_path_replaces_every_md.1 "notes" (by decide)⟩

/-- C4: For every job whose Markdown source file does not exist, the job is
recorded as SourceMissing, counted as failed (the failure counter is bumped,
the success counter is not), no HTML or PDF artifact is created for that job
(the job leaves the filesystem untouched), and processing continues to the
next job (every configured job still gets a result). -/
theorem C4_source_missing (fs0 : FS) (pre post : List (Job × JobEnv))
    (j : Job) (e : JobEnv)
    (hmd : (mainLoop fs0 0 0 pre).fs j.md = none) :
    (mainLoop fs0 0 0 (pre ++ (j, e) :: post)).results[pre.length]? =
      some JobResult.sourceMissing ∧
    processJob (mainLoop fs0 0 0 pre).fs j e =
      (JobResult.sourceMissing, (mainLoop fs0 0 0 pre).fs) ∧
    (contLoop (mainLoop fs0 0 0 pre) [(j, e)]).failCount =
      (mainLoop fs0 0 0 pre).failCount + 1 ∧
    (contLoop (mainLoop fs0 0 0 pre) [(j, e)]).successCount =
      (mainLoop fs0 0 0 pre).successCount ∧
    (mainLoop fs0 0 0 (pre ++ (j, e) :: post)).results.length =
      pre.length + 1 + post.length := by
  have hstep := processJob_sourceMissing (mainLoop fs0 0 0 pre).fs j e hmd
  have hidx : (pre ++ (j, e) :: post)[pre.length]? = some (j, e) := by
    rw [List.getElem?_append_right (le_refl pre.length)]; simp
  refine ⟨?_, hstep, ?_, ?_, ?_⟩
  · rw [mainLoop_get _ _ _ _ _ _ _ hidx, List.take_left, hstep]
  · simp [contLoop, mainLoop, hstep]
  · simp [contLoop, mainLoop, hstep]
  · rw [mainLoop_results_length]
    simp only [List.length_append, List.length_cons]
    omega

theorem C4_witness :
    (mainLoop fsEmpty 0 0 []).fs "a.md" = none ∧
    (mainLoop fsEmpty 0 0 ([] ++ (Job.mk "a.md" "a.pdf", eGood) :: [])).results[0]? =
      some JobResult.sourceMissing :=
  ⟨rfl, (C4_source_missing fsEmpty [] [] ⟨"a.md", "a.pdf"⟩ eGood rfl).1⟩

/-- C2: For every job where the pandoc subprocess exits with a non-zero
status, the job is recorded as ConversionFailed carrying the captured
standard-error text, the job leaves the filesystem unchanged (in particular no
PDF is produced for it), and processing continues with the next job. -/
theorem C2_pandoc_failure (fs0 : FS) (pre post : List (Job × JobEnv))
    (j : Job) (e : JobEnv) (n : Nat)
    (hmd : (mainLoop fs0 0 0 pre).fs j.md = some n)
    (hrc : e.pandocRc ≠ 0) :
    (mainLoop fs0 0 0 (pre ++ (j, e) :: post)).results[pre.length]? =
      some (JobResult.conversionFailed e.pandocStderr) ∧
    processJob (mainLoop fs0 0 0 pre).fs j e =
      (JobResult.conversionFailed e.pandocStderr, (mainLoop fs0 0 0 pre).fs) ∧
    (mainLoop fs0 0 0 (pre ++ (j, e) :: post)).results.length =
      pre.length + 1 + post.length := by
  have hstep := processJob_pandocFail (mainLoop fs0 0 0 pre).fs j e n hmd hrc
  have hidx : (pre ++ (j, e) :: post)[pre.length]? = some (j, e) := by
    rw [List.getElem?_append_right (le_refl pre.length)]; simp
  refine ⟨?_, hstep, ?_⟩
  · rw [mainLoop_get _ _ _ _ _ _ _ hidx, List.take_left, hstep]
  · rw [mainLoop_results_length]
    simp only [List.length_append, List.length_cons]
    omega

theorem C2_witness :
    (mainLoop fsA 0 0 []).fs "a.md" = some 7 ∧
    ePandocFail.pandocRc ≠ 0 ∧
    (mainLoop fsA 0 0 ([] ++ (Job.mk "a.md" "a.pdf", ePandocFail) :: [])).results[0]? =
      some (JobResult.conversionFailed ePandocFail.pandocStderr) :=
  ⟨by decide, by decide,
   (C2_pandoc_failure fsA [] [] ⟨"a.md", "a.pdf"⟩ ePandocFail 7
      (by decide) (by decide)).1⟩

/-- C3: For every job, an exception raised by the HTML-to-PDF rendering step
(a raising `write_pdf` call, or the `ImportError` of an unavailable WeasyPrint
library) is caught, the job is recorded as ConversionFailed, and the batch
proceeds to the next job rather than terminating: every configured job still
gets a result. -/
theorem C3_render_exception (fs0 : FS) (pre post : List (Job × JobEnv))
    (j : Job) (e : JobEnv) (n : Nat)
    (hmd : (mainLoop fs0 0 0 pre).fs j.md = some n)
    (hrc : e.pandocRc = 0)
    (hr : e.render = RenderOutcome.importError ∨
          ∃ m, e.render = RenderOutcome.exn m) :
    (∃ reason,
      (mainLoop fs0 0 0 (pre ++ (j, e) :: post)).results[pre.length]? =
        some (JobResult.conversionFailed reason)) ∧
    (mainLoop fs0 0 0 (pre ++ (j, e) :: post)).results.length =
      pre.length + 1 + post.length := by
  constructor
  · have hidx : (pre ++ (j, e) :: post)[pre.length]? = some (j, e) := by
      rw [List.getElem?_append_right (le_refl pre.length)]; simp
    rcases hr with hr | ⟨m, hr⟩
    · refine ⟨weasyprintMissingMsg, ?_⟩
      rw [mainLoop_get _ _ _ _ _ _ _ hidx, List.take_left,
        processJob_importError _ _ _ n hmd hrc hr]
    · refine ⟨m, ?_⟩
      rw [mainLoop_get _ _ _ _ _ _ _ hidx, List.take_left,
        processJob_renderExn _ _ _ n m hmd hrc hr]
  · rw [mainLoop_results_length]
    simp only [List.length_append, List.length_cons]
    omega

theorem C3_witness :
    (mainLoop fsA 0 0 []).fs "a.md" = some 7 ∧
    eRenderFail.pandocRc = 0 ∧
    (∃ reason,
      (mainLoop fsA 0 0 ([] ++ (Job.mk "a.md" "a.pdf", eRenderFail) :: [])).results[0]? =
        some (JobResult.conversionFailed reason)) :=
  ⟨by decide, by decide,
   (C3_render_exception fsA [] [] ⟨"a.md", "a.pdf"⟩ eRenderFail 7
      (by decide) (by decide) (Or.inr ⟨"Failed to load image", by decide⟩)).1⟩

/-- C10: For every job where HTML generation succeeds but the rendering step
raises, the intermediate HTML file is not deleted and remains on disk after
the run (no later job touches its path); cleanup happens only on the success
path, and a failure of the cleanup deletion itself after a successful PDF
write causes the job to be recorded as failed, again leaving the HTML file on
disk. -/
theorem C10_html_survives_render_failure (fs0 : FS)
    (pre post : List (Job × JobEnv)) (j : Job) (e : JobEnv) (n : Nat)
    (hmd : (mainLoop fs0 0 0 pre).fs j.md = some n)
    (hrc : e.pandocRc = 0)
    (hr : e.render = RenderOutcome.importError ∨
          ∃ m, e.render = RenderOutcome.exn m)
    (hpost : ∀ je ∈ post, htmlOf j.md ≠ htmlOf je.1.md ∧ htmlOf j.md ≠ je.1.pdf) :
    (mainLoop fs0 0 0 (pre ++ (j, e) :: post)).fs (htmlOf j.md) =
      some e.htmlSize ∧
    (∀ (fs : FS) (e' : JobEnv) (k psz : Nat), fs j.md = some k →
      e'.pandocRc = 0 → e'.render = RenderOutcome.ok psz →
      e'.removeRaises = true →
      (processJob fs j e').1 = JobResult.conversionFailed e'.removeMsg ∧
      (processJob fs j e').2 (htmlOf j.md) ≠ none) := by
  constructor
  · rcases hr with hr | ⟨m, hr⟩
    · have hstep :=
        processJob_importError (mainLoop fs0 0 0 pre).fs j e n hmd hrc hr
      rw [mainLoop_append]
      show (contLoop (mainLoop fs0 0 0 pre) ((j, e) :: post)).fs (htmlOf j.md) =
        some e.htmlSize
      unfold contLoop
      simp only [mainLoop, hstep]
      rw [if_neg (by simp), mainLoop_frame post _ _ _ _ hpost]
      simp
    · have hstep :=
        processJob_renderExn (mainLoop fs0 0 0 pre).fs j e n m hmd hrc hr
      rw [mainLoop_append]
      show (contLoop (mainLoop fs0 0 0 pre) ((j, e) :: post)).fs (htmlOf j.md) =
        some e.htmlSize
      unfold contLoop
      simp only [mainLoop, hstep]
      rw [if_neg (by simp), mainLoop_frame post _ _ _ _ hpost]
      simp
  · intro fs e' k psz hk hrc' hr' hrm'
    have hstep := processJob_removeRaises fs j e' k psz hk hrc' hr' hrm'
    rw [hstep]
    refine ⟨rfl, ?_⟩
    by_cases hh : htmlOf j.md = j.pdf <;> simp [hh]

theorem C10_witness :
    (mainLoop fsA 0 0 []).fs "a.md" = some 7 ∧
    (mainLoop fsA 0 0 ([] ++ (Job.mk "a.md" "a.pdf", eRenderFail) :: [])).fs
      (htmlOf "a.md") = some eRenderFail.htmlSize :=
  ⟨by decide,
   (C10_html_survives_render_failure fsA [] [] ⟨"a.md", "a.pdf"⟩ eRenderFail 7
      (by decide) (by decide) (Or.inr ⟨"Failed to load image", by decide⟩)
      (by simp)).1⟩

/-- C1 (counterexample to the claim as stated): a job whose Markdown source
exists, whose pandoc subprocess exits 0 and whose rendering call succeeds can
still end up recorded as failed rather than Succeeded, with the intermediate
HTML file surviving: it suffices that the best-effort `os.remove` cleanup
raises, which the script's catch-all `except` turns into a `False` return. -/
theorem C1_counterexample :
    fsA "a.md" = some 7 ∧
    eRemoveFail.pandocRc = 0 ∧
    eRemoveFail.render = RenderOutcome.ok 5 ∧
    (mainLoop fsA 0 0 [(Job.mk "a.md" "a.pdf", eRemoveFail)]).results[0]? ≠
      some JobResult.succeeded ∧
    (mainLoop fsA 0 0 [(Job.mk "a.md" "a.pdf", eRemoveFail)]).fs
      (htmlOf "a.md") ≠ none := by
  refine ⟨by decide, by decide, by decide, by decide, by decide⟩

/-- C1 (amended): For every job whose Markdown source exists when it is
processed, whose pandoc subprocess exits 0, whose rendering call succeeds
with a non-empty PDF, and whose best-effort deletion of the intermediate HTML
file does not raise, the job is recorded as Succeeded; and — the job's HTML
and PDF paths being distinct and untouched by later jobs — after the run the
PDF file exists with size > 0 while the HTML file no longer exists. -/
theorem C1_success_amended (fs0 : FS) (pre post : List (Job × JobEnv))
    (j : Job) (e : JobEnv) (n psz : Nat)
    (hmd : (mainLoop fs0 0 0 pre).fs j.md = some n)
    (hrc : e.pandocRc = 0)
    (hr : e.render = RenderOutcome.ok psz)
    (hrm : e.removeRaises = false)
    (hpsz : 0 < psz)
    (hne : htmlOf j.md ≠ j.pdf)
    (hpost : ∀ je ∈ post,
      (htmlOf j.md ≠ htmlOf je.1.md ∧ htmlOf j.md ≠ je.1.pdf) ∧
      (j.pdf ≠ htmlOf je.1.md ∧ j.pdf ≠ je.1.pdf)) :
    (mainLoop fs0 0 0 (pre ++ (j, e) :: post)).results[pre.length]? =
      some JobResult.succeeded ∧
    (mainLoop fs0 0 0 (pre ++ (j, e) :: post)).fs (htmlOf j.md) = none ∧
    (mainLoop fs0 0 0 (pre ++ (j, e) :: post)).fs j.pdf = some psz ∧
    0 < psz := by
  have hstep :=
    processJob_success (mainLoop fs0 0 0 pre).fs j e n psz hmd hrc hr hrm
  have hidx : (pre ++ (j, e) :: post)[pre.length]? = some (j, e) := by
    rw [List.getElem?_append_right (le_refl pre.length)]; simp
  refine ⟨?_, ?_, ?_, hpsz⟩
  · rw [mainLoop_get _ _ _ _ _ _ _ hidx, List.take_left, hstep]
  · rw [mainLoop_append]
    show (contLoop (mainLoop fs0 0 0 pre) ((j, e) :: post)).fs (htmlOf j.md) =
      none
    unfold contLoop
    simp only [mainLoop, hstep]
    rw [if_pos trivial, mainLoop_frame post _ _ _ _ (fun x hx => (hpost x hx).1)]
    simp
  · rw [mainLoop_append]
    show (contLoop (mainLoop fs0 0 0 pre) ((j, e) :: post)).fs j.pdf = some psz
    unfold contLoop
    simp only [mainLoop, hstep]
    rw [if_pos trivial, mainLoop_frame post _ _ _ _ (fun x hx => (hpost x hx).2)]
    simp [Ne.symm hne]

theorem C1_witness :
    (mainLoop fsA 0 0 []).fs "a.md" = some 7 ∧
    (mainLoop fsA 0 0 ([] ++ (Job.mk "a.md" "a.pdf", eGood) :: [])).results[0]? =
      some JobResult.succeeded ∧
    (mainLoop fsA 0 0 ([] ++ (Job.mk "a.md" "a.pdf", eGood) :: [])).fs
      (htmlOf "a.md") = none ∧
    (mainLoop fsA 0 0 ([] ++ (Job.mk "a.md" "a.pdf", eGood) :: [])).fs "a.pdf" =
      some 5 := by
  have h := C1_success_amended fsA [] [] ⟨"a.md", "a.pdf"⟩ eGood 7 5
    (by decide) (by decide) (by decide) (by decide) (by decide) (by decide)
    (by simp)
  exact ⟨by decide, h.1, h.2.1, h.2.2.1⟩

/-- C5: After processing, the summary's success count plus failure count
equals the total number of configured jobs, whatever the per-job outcomes. -/
theorem C5_summary_counts (fs0 : FS) (envs : List JobEnv)
    (h : documents.length ≤ envs.length) :
    (main fs0 envs).successCount + (main fs0 envs).failCount =
      documents.length := by
  show (mainLoop fs0 0 0 (documents.zip envs)).successCount +
      (mainLoop fs0 0 0 (documents.zip envs)).failCount = documents.length
  rw [mainLoop_counts]
  simp [List.length_zip, Nat.min_eq_left h]

theorem C5_witness :
    documents.length ≤ ([eGood, eGood, eGood] : List JobEnv).length ∧
    (main fsEmpty [eGood, eGood, eGood]).successCount +
      (main fsEmpty [eGood, eGood, eGood]).failCount = documents.length :=
  ⟨by decide, C5_summary_counts fsEmpty [eGood, eGood, eGood] (by decide)⟩

/-- C6: The program exits with status 0 unconditionally: `main` completes
normally for every filesystem and every combination of per-job outcomes, and
even in the worst case — every configured job failing — the exit status is
still 0. -/
theorem C6_exit_status_zero :
    (∀ (fs0 : FS) (envs : List JobEnv), (main fs0 envs).exitCode = 0) ∧
    (main fsEmpty [eGood, eGood, eGood]).failCount = documents.length ∧
    (main fsEmpty [eGood, eGood, eGood]).exitCode = 0 :=
  ⟨fun _ _ => rfl, by decide, rfl⟩

/-- C7: Jobs are processed strictly sequentially in the order of the job
list: every job yields exactly one result (none skipped, none repeated), and
the i-th result is obtained by processing the i-th job on the filesystem
state left by exactly the first i jobs. -/
theorem C7_sequential_processing (fs0 : FS) (jobs : List (Job × JobEnv)) :
    (mainLoop fs0 0 0 jobs).results.length = jobs.length ∧
    ∀ (i : Nat) (j : Job) (e : JobEnv), jobs[i]? = some (j, e) →
      (mainLoop fs0 0 0 jobs).results[i]? =
        some (processJob (mainLoop fs0 0 0 (jobs.take i)).fs j e).1 :=
  ⟨mainLoop_results_length jobs fs0 0 0,
   fun i j e h => mainLoop_get jobs fs0 0 0 i j e h⟩

theorem C7_witness :
    ([(Job.mk "a.md" "a.pdf", eGood), (Job.mk "b.md" "b.pdf", ePandocFail)] :
        List (Job × JobEnv))[1]? = some (Job.mk "b.md" "b.pdf", ePandocFail) ∧
    (mainLoop fsA 0 0
        [(Job.mk "a.md" "a.pdf", eGood),
         (Job.mk "b.md" "b.pdf", ePandocFail)]).results[1]? =
      some (processJob
        (mainLoop fsA 0 0
          ([(Job.mk "a.md" "a.pdf", eGood),
            (Job.mk "b.md" "b.pdf", ePandocFail)].take 1)).fs
        (Job.mk "b.md" "b.pdf") ePandocFail).1 :=
  ⟨by decide,
   (C7_sequential_processing fsA _).2 1 (Job.mk "b.md" "b.pdf") ePandocFail
     (by decide)⟩

/-- C8: After all jobs are processed the program prints the success/failure
summary, and then one listing line per job in list order: the output PDF with
its size when the file exists in the final filesystem, the NOT FOUND marker
otherwise.  In the single-job scenario with an absent source the summary
reads "Summary: 0 successful, 1 failed" and the listing shows the PDF as NOT
FOUND. -/
theorem C8_summary_then_listing :
    (∀ (docs : List Job) (fs0 : FS) (envs : List JobEnv),
      (mainOn docs fs0 envs).summary =
        summaryLine (mainOn docs fs0 envs).successCount
          (mainOn docs fs0 envs).failCount ∧
      (∀ (i : Nat) (j : Job), docs[i]? = some j →
        (mainOn docs fs0 envs).listing[i]? =
          some (match (mainOn docs fs0 envs).finalFs j.pdf with
                | some sz => ListingEntry.found j.pdf sz
                | none => ListingEntry.notFound j.pdf))) ∧
    (mainOn [Job.mk "a.md" "a.pdf"] fsEmpty [eGood]).summary =
      "Summary: 0 successful, 1 failed" ∧
    (mainOn [Job.mk "a.md" "a.pdf"] fsEmpty [eGood]).listing =
      [ListingEntry.notFound "a.pdf"] := by
  refine ⟨?_, by decide, by decide⟩
  intro docs fs0 envs
  refine ⟨rfl, ?_⟩
  intro i j h
  show (listingOf (mainLoop fs0 0 0 (docs.zip envs)).fs docs)[i]? = _
  unfold listingOf
  rw [List.getElem?_map, h]
  rfl

theorem C8_witness :
    ([Job.mk "a.md" "a.pdf"] : List Job)[0]? = some (Job.mk "a.md" "a.pdf") ∧
    (mainOn [Job.mk "a.md" "a.pdf"] fsEmpty [eGood]).listing[0]? =
      some (match (mainOn [Job.mk "a.md" "a.pdf"] fsEmpty [eGood]).finalFs
              "a.pdf" with
            | some sz => ListingEntry.found "a.pdf" sz
            | none => ListingEntry.notFound "a.pdf") :=
  ⟨by decide,
   (C8_summary_then_listing.1 [Job.mk "a.md" "a.pdf"] fsEmpty [eGood]).2 0
     (Job.mk "a.md" "a.pdf") (by decide)⟩

end ConvertToPdf
